import Mathlib

/-!
Shallow embedding of `src/app.py` (AI Crypto Assistant).

The program is a Streamlit app: a coin-name resolver (`extract_coin`), three
guarded HTTP fetches (`get_crypto_news`, `get_price_from_binance`,
`get_market_data`), a prompt builder plus LLM round trip
(`generate_ai_response`), and a main flow that wires them together.

Modelling decisions:
  * Python strings are Lean `String`s, manipulated through `List Char`
    helpers (`pyLower`, `pyReplace`, ...) that mirror the exact Python
    string methods the code uses (ASCII semantics; the program only ever
    builds ASCII-relevant data, plus two literal curly-quote characters).
  * Every HTTP / LLM exchange is a "world" parameter: a pure function from
    the request's distinguishing argument to an `Option` of the parsed
    response.  `none` collapses every failure mode the corresponding
    `try/except` catches (transport error, timeout, non-2xx status, JSON or
    float parse failure).  Floats are modelled as `ℚ`.
  * Streamlit side effects (`st.error`, `st.warning`, caching annotations)
    are outside the embedding; the functions' return values are modelled
    exactly.
-/

/-! ### Python string primitives -/

/-- Python `str.lower()` (ASCII letters, as used by the program). -/
def pyLower (s : String) : String := ⟨s.data.map Char.toLower⟩

/-- Python `str.upper()` (ASCII letters, as used by the program). -/
def pyUpper (s : String) : String := ⟨s.data.map Char.toUpper⟩

/-- Python `str.strip()` : drop whitespace from both ends. -/
def pyStrip (s : String) : String :=
  ⟨((s.data.dropWhile Char.isWhitespace).reverse.dropWhile Char.isWhitespace).reverse⟩

/-- Python `str.strip(chars)` : drop any character of `cs` from both ends. -/
def pyStripChars (s : String) (cs : List Char) : String :=
  ⟨((s.data.dropWhile (fun c => cs.contains c)).reverse.dropWhile
      (fun c => cs.contains c)).reverse⟩

/-- Fuel-driven worker for `pyReplace`: replace occurrences of `pat` by `rep`
left to right, non-overlapping, exactly like Python `str.replace`.  The fuel
(always instantiated with the string length, which bounds the number of
steps) keeps the recursion structural so the kernel can evaluate it. -/
def replaceFuel (pat rep : List Char) : Nat → List Char → List Char
  | _, [] => []
  | 0, s => s
  | fuel + 1, c :: rest =>
    if pat.isPrefixOf (c :: rest) then
      rep ++ replaceFuel pat rep fuel (rest.drop (pat.length - 1))
    else
      c :: replaceFuel pat rep fuel rest

/-- Python `s.replace(pat, rep)` for the nonempty patterns this program uses
(every pattern in `src/app.py` is a nonempty literal). -/
def pyReplace (s pat rep : String) : String :=
  if pat.data.isEmpty then s
  else ⟨replaceFuel pat.data rep.data s.data.length s.data⟩

/-- First whitespace-delimited token of an already-stripped string: models
`q.split()[0] if q else ''` as it appears after `q = q.strip()`. -/
def firstToken (s : String) : String :=
  ⟨(s.data.dropWhile Char.isWhitespace).takeWhile (fun c => !c.isWhitespace)⟩

/-- Python `str.isupper()` (ASCII): at least one letter and no lowercase. -/
def pyIsUpper (s : String) : Bool :=
  s.data.any Char.isAlpha && !(s.data.any Char.isLower)

/-- Python `s.endswith(suffix)`. -/
def pyEndsWith (s suffix : String) : Bool :=
  s.data.drop (s.data.length - suffix.data.length) == suffix.data

/-- Python `str.capitalize()` (ASCII): first char upper, rest lower. -/
def pyCapitalize (s : String) : String :=
  match s.data with
  | [] => ""
  | c :: rest => ⟨c.toUpper :: rest.map Char.toLower⟩

/-! ### Coin resolver (`extract_coin`, src/app.py lines 32-53) -/

/-- The fixed noise-phrase list of `extract_coin` (src/app.py lines 40-43).
`"what’s"` is the curly-quote variant present in the source. -/
def noiseWords : List String :=
  ["tell me about", "what\x27s", "what is", "what’s", "latest", "news",
   "price", "and", "market cap", "about", "?", "please"]

/-- The character set of `token.strip(" .,!?'")` (src/app.py line 49). -/
def stripSet : List Char := " .,!?\x27".data

/-- Everything `extract_coin` does before its upper-case-ticker conditional:
lower-case, normalize curly quotes, remove noise phrases, strip, take the
first token, strip surrounding punctuation (src/app.py lines 38-49). -/
def extract_token (query : String) : String :=
  let q := pyReplace (pyReplace (pyLower query) "’" "\x27") "‘" "\x27"
  let q := noiseWords.foldl (fun s w => pyReplace s w "") q
  let q := pyStrip q
  pyStripChars (firstToken q) stripSet

/-- `extract_coin` (src/app.py lines 32-53), including the (dead)
upper-case-ticker conditional of lines 51-53. -/
def extract_coin (query : String) : String :=
  let token := extract_token query
  if pyIsUpper token = true ∧ 3 ≤ token.length ∧ token.length ≤ 5 then
    pyLower token
  else
    pyLower token

/-- Variant of `extract_coin` with the upper-case-ticker conditional removed:
both of its branches return `token.lower()`. -/
def extract_coin_no_ticker_branch (query : String) : String :=
  pyLower (extract_token query)

/-! ### Data model -/

/-- A news record projected from the CryptoPanic response (only the fields
the program reads). -/
structure NewsItem where
  title : String
  source_title : String
  published_at : String
  url : String
deriving DecidableEq, Repr

/-- One record of the CoinMarketCap listings response, with the fields
`get_market_data` reads (src/app.py lines 105-114). -/
structure CMCRecord where
  name : String
  symbol : String
  price : ℚ
  market_cap : ℚ
  cmc_rank : ℕ
  change_24h : ℚ
deriving DecidableEq, Repr

/-- The dict `get_market_data` builds from a matching record
(src/app.py lines 107-114). -/
structure MarketSnapshot where
  name : String
  symbol : String
  price : ℚ
  market_cap : ℚ
  rank : ℕ
  change_24h : ℚ
deriving DecidableEq, Repr

/-- Projection of a listings record into the returned snapshot dict. -/
def toSnapshot (c : CMCRecord) : MarketSnapshot :=
  ⟨c.name, c.symbol, c.price, c.market_cap, c.cmc_rank, c.change_24h⟩

/-! ### Guarded fetches -/

/-- `get_crypto_news` (src/app.py lines 56-70): `resp` is the parsed
`results` list of a successful call (`none` = any caught failure).  Returns
`results[:5]` on success and `[]` on failure. -/
def get_crypto_news (resp : Option (List NewsItem)) : List NewsItem :=
  match resp with
  | none => []
  | some results => results.take 5

/-- One iteration of the pair loop in `get_price_from_binance` (src/app.py
lines 76-87): fetch the pair's price; if the pair ends in `"BTC"`, also
fetch `BTCUSDT` and convert by multiplication; any failure abandons the
branch.  `world pair` is the parsed price of a fully successful
fetch-and-parse of that trading pair, `none` otherwise. -/
def fetch_pair (world : String → Option ℚ) (pair : String) : Option ℚ :=
  match world pair with
  | none => none
  | some p =>
    if pyEndsWith pair "BTC" then (world "BTCUSDT").map (fun conv => p * conv)
    else some p

/-- `get_price_from_binance` (src/app.py lines 74-91): try `<symbol>USDT`
then `<symbol>BTC`; exhaustion of the loop raises, is caught, and yields
`None`. -/
def get_price_from_binance (world : String → Option ℚ) (symbol : String) :
    Option ℚ :=
  match fetch_pair world (symbol ++ "USDT") with
  | some p => some p
  | none => fetch_pair world (symbol ++ "BTC")

/-- The match test of the listings scan (src/app.py line 106):
case-insensitive comparison of the query against name and symbol. -/
def coinMatches (coin_name : String) (c : CMCRecord) : Bool :=
  pyLower c.name == pyLower coin_name || pyLower c.symbol == pyLower coin_name

/-- `get_market_data` (src/app.py lines 94-118): `resp` is the parsed `data`
list of a successful listings call (`none` = any caught failure).  Linear
scan for the first case-insensitive match; `None` when nothing matches. -/
def get_market_data (coin_name : String) (resp : Option (List CMCRecord)) :
    Option MarketSnapshot :=
  match resp with
  | none => none
  | some data => (data.find? (coinMatches coin_name)).map toSnapshot

/-! ### Prompt assembly and summarization (`generate_ai_response`) -/

/-- `f"{price_data['price']}" if price_data else "N/A"` (src/app.py line
130): the dict `{"price": p}` is nonempty, hence truthy, whenever present.
Python float formatting is idealized as `toString`. -/
def price_str_of : Option ℚ → String
  | some p => toString p
  | none => "N/A"

/-- The news block of the prompt (src/app.py line 131); `json.dumps` of the
title list is idealized as an intercalation, `"No recent news"` when the
list is empty (empty list is falsy). -/
def news_str_of (news : List NewsItem) : String :=
  if news.isEmpty then "No recent news"
  else String.intercalate ", " (news.map (fun n => n.title))

/-- The prompt template of `generate_ai_response` (src/app.py lines
122-149).  Numeric `{:,.0f}`-style formatting is idealized as `toString`;
the `"N/A"` placeholders and the overall structure are faithful. -/
def mkPrompt (coin_name : String) (news : List NewsItem)
    (price_data : Option ℚ) (market_data : Option MarketSnapshot) : String :=
  let rank_str := match market_data with
    | some m => "#" ++ toString m.rank
    | none => "N/A"
  let cap_str := match market_data with
    | some m => "$" ++ toString m.market_cap
    | none => "N/A"
  let change_str := match market_data with
    | some m => toString m.change_24h ++ "%"
    | none => "N/A"
  "Analyze this cryptocurrency data and provide a concise summary:\n\nCoin: "
    ++ pyCapitalize coin_name
    ++ "\n\nCurrent Price: " ++ price_str_of price_data
    ++ "\n\nMarket Data:\n- Rank: " ++ rank_str
    ++ "\n- Market Cap: " ++ cap_str
    ++ "\n- 24h Change: " ++ change_str
    ++ "\n\nLatest News:\n" ++ news_str_of news
    ++ "\n\nProvide key insights and trends in 150-200 words.\n"

/-- `generate_ai_response` (src/app.py lines 121-166): `gen prompt` is the
summarizer world — `none` for any caught failure (connection error, Ollama
error, anything else), `some r` for a successful call whose `response`
field is `r` (`r = none` when the key is absent, defaulted to `""` by
`resp.get("response", "")`).  Every failure path returns `""`. -/
def generate_ai_response (coin_name : String) (news : List NewsItem)
    (price_data : Option ℚ) (market_data : Option MarketSnapshot)
    (gen : String → Option (Option String)) : String :=
  match gen (mkPrompt coin_name news price_data market_data) with
  | none => ""
  | some r => r.getD ""

/-! ### Main flow (src/app.py lines 179-235) -/

/-- `TICKER_OVERRIDES` (src/app.py lines 24-29). -/
def TICKER_OVERRIDES : List (String × String) :=
  [("bitcoin", "BTC"), ("ethereum", "ETH"), ("solana", "SOL")]

/-- The `elif coin_name in TICKER_OVERRIDES ... else coin_name.upper()` arms
of the symbol selection (src/app.py lines 192-195). -/
def select_symbol_fallback (coin_name : String) : String :=
  match TICKER_OVERRIDES.lookup coin_name with
  | some t => t
  | none => pyUpper coin_name

/-- Symbol selection of the main flow (src/app.py lines 190-195):
`if market_data and market_data.get("symbol")` — the snapshot dict is
always nonempty (truthy) when present, and its `symbol` value is truthy
exactly when it is a nonempty string. -/
def select_symbol (coin_name : String) (market_data : Option MarketSnapshot) :
    String :=
  match market_data with
  | some m => if m.symbol ≠ "" then m.symbol else select_symbol_fallback coin_name
  | none => select_symbol_fallback coin_name

/-- Python truthiness of the optional price float: `None` and `0.0` are
falsy, every other float truthy. -/
def pyTruthyPrice : Option ℚ → Bool
  | none => false
  | some p => decide (p ≠ 0)

/-- Outcome of one query through the main flow: either the early
`st.warning` + `st.stop()` exit, or a full render.  `rendered` records the
coin, the fetched news / market / price values, the price record handed to
`generate_ai_response` (`passedPrice`), the narrative text, and whether the
standalone Binance price metric is shown. -/
inductive FlowResult where
  | unsupported (coin_name : String)
  | rendered (coin_name : String) (news : List NewsItem)
      (market_data : Option MarketSnapshot) (price : Option ℚ)
      (passedPrice : Option ℚ) (aiText : String) (binanceMetricShown : Bool)
deriving DecidableEq

/-- The `if query:` block of the Streamlit script (src/app.py lines
179-235), with each external exchange supplied as a world parameter. -/
def main_flow (newsResp : Option (List NewsItem))
    (listResp : Option (List CMCRecord)) (priceWorld : String → Option ℚ)
    (gen : String → Option (Option String)) (query : String) : FlowResult :=
  let coin_name := extract_coin query
  let news := get_crypto_news newsResp
  let market_data := get_market_data coin_name listResp
  if market_data.isNone && news.isEmpty then
    FlowResult.unsupported coin_name
  else
    let symbol := select_symbol coin_name market_data
    let price := get_price_from_binance priceWorld symbol
    let price_data := if pyTruthyPrice price then price else none
    let ai := generate_ai_response coin_name news price_data market_data gen
    FlowResult.rendered coin_name news market_data price price_data ai
      (pyTruthyPrice price && market_data.isNone)

/-! ### Character-level helper lemmas -/

lemma char_eq_of_toNat_eq {a b : Char} (h : a.toNat = b.toNat) : a = b := by
  rw [← Char.ofNat_toNat a, ← Char.ofNat_toNat b, h]

lemma char_toNat_ofNat (n : Nat) (h : n.isValidChar) : (Char.ofNat n).toNat = n := by
  rw [Char.ofNat, dif_pos h]; rfl

lemma char_toLower_def (c : Char) :
    Char.toLower c =
      if 65 ≤ c.toNat ∧ c.toNat ≤ 90 then Char.ofNat (c.toNat + 32) else c := rfl

lemma char_toLower_toNat (c : Char) :
    (Char.toLower c).toNat =
      if 65 ≤ c.toNat ∧ c.toNat ≤ 90 then c.toNat + 32 else c.toNat := by
  rw [char_toLower_def]
  split
  · next h => exact char_toNat_ofNat _ (Or.inl (by omega))
  · rfl

lemma char_toLower_idem (c : Char) :
    Char.toLower (Char.toLower c) = Char.toLower c := by
  by_cases hc : 65 ≤ c.toNat ∧ c.toNat ≤ 90
  · have h1 : (Char.toLower c).toNat = c.toNat + 32 := by
      rw [char_toLower_toNat, if_pos hc]
    rw [char_toLower_def (Char.toLower c), if_neg (by rw [h1]; omega)]
  · have h1 : (Char.toLower c).toNat = c.toNat := by
      rw [char_toLower_toNat, if_neg hc]
    rw [char_toLower_def (Char.toLower c), if_neg (by rw [h1]; exact hc)]

lemma char_isWhitespace_iff (c : Char) :
    c.isWhitespace = true ↔
      (c.toNat = 32 ∨ c.toNat = 9 ∨ c.toNat = 13 ∨ c.toNat = 10) := by
  have h : c.isWhitespace = true ↔ (c = ' ' ∨ c = '\t' ∨ c = '\r' ∨ c = '\n') := by
    simp [Char.isWhitespace, or_assoc]
  rw [h]
  constructor
  · rintro (rfl | rfl | rfl | rfl) <;> simp
  · rintro (h1 | h1 | h1 | h1)
    · exact Or.inl (char_eq_of_toNat_eq h1)
    · exact Or.inr (Or.inl (char_eq_of_toNat_eq h1))
    · exact Or.inr (Or.inr (Or.inl (char_eq_of_toNat_eq h1)))
    · exact Or.inr (Or.inr (Or.inr (char_eq_of_toNat_eq h1)))

lemma char_toLower_not_ws {c : Char} (h : c.isWhitespace = false) :
    (Char.toLower c).isWhitespace = false := by
  have hn : ¬ (c.toNat = 32 ∨ c.toNat = 9 ∨ c.toNat = 13 ∨ c.toNat = 10) := by
    intro hmem
    rw [(char_isWhitespace_iff c).2 hmem] at h
    simp at h
  rw [Bool.eq_false_iff]
  intro hws
  have hm := (char_isWhitespace_iff _).1 hws
  rw [char_toLower_toNat] at hm
  split at hm
  · next hr => rcases hm with hm | hm | hm | hm <;> omega
  · exact hn hm

/-! ### String-level helper lemmas -/

lemma string_mk_data (s : String) : String.mk s.data = s := rfl

lemma pyLower_data (s : String) : (pyLower s).data = s.data.map Char.toLower := rfl

lemma pyLower_idem (s : String) : pyLower (pyLower s) = pyLower s := by
  show String.mk ((s.data.map Char.toLower).map Char.toLower) =
    String.mk (s.data.map Char.toLower)
  rw [List.map_map]
  have h : Char.toLower ∘ Char.toLower = Char.toLower := funext char_toLower_idem
  rw [h]

lemma dropWhile_of_all_false {α : Type} (p : α → Bool) (l : List α)
    (h : ∀ c ∈ l, p c = false) : l.dropWhile p = l := by
  cases l with
  | nil => rfl
  | cons a t =>
    rw [List.dropWhile_cons, h a (List.mem_cons_self a t)]
    simp

lemma pyStrip_of_no_ws (s : String) (h : ∀ c ∈ s.data, c.isWhitespace = false) :
    pyStrip s = s := by
  unfold pyStrip
  rw [dropWhile_of_all_false _ _ h,
    dropWhile_of_all_false _ _ (fun c hc => h c (List.mem_reverse.1 hc)),
    List.reverse_reverse]

lemma mem_pyStripChars {s : String} {cs : List Char} {c : Char}
    (h : c ∈ (pyStripChars s cs).data) : c ∈ s.data := by
  unfold pyStripChars at h
  have h1 := List.mem_reverse.1 h
  have h2 := List.Sublist.mem h1 (List.dropWhile_sublist _)
  have h3 := List.mem_reverse.1 h2
  exact List.Sublist.mem h3 (List.dropWhile_sublist _)

lemma firstToken_strip_no_ws (s : String) (cs : List Char) :
    ∀ c ∈ (pyStripChars (firstToken s) cs).data, c.isWhitespace = false := by
  intro c hc
  have h1 := mem_pyStripChars hc
  unfold firstToken at h1
  have h2 := List.mem_takeWhile_imp h1
  simpa using h2

lemma extract_token_no_ws (query : String) :
    ∀ c ∈ (extract_token query).data, c.isWhitespace = false :=
  firstToken_strip_no_ws _ _

/-- Both branches of the ticker conditional return `token.lower()`. -/
lemma extract_coin_eq (query : String) :
    extract_coin query = pyLower (extract_token query) := by
  show (if pyIsUpper (extract_token query) = true ∧
      3 ≤ (extract_token query).length ∧ (extract_token query).length ≤ 5 then
    pyLower (extract_token query) else pyLower (extract_token query)) =
    pyLower (extract_token query)
  exact ite_self _

/-! ### Trading-pair suffix lemmas -/

lemma string_data_append (s t : String) : (s ++ t).data = s.data ++ t.data := rfl

lemma pyEndsWith_append_USDT (s : String) : pyEndsWith (s ++ "USDT") "BTC" = false := by
  unfold pyEndsWith
  rw [string_data_append, List.length_append]
  have h2 : s.data.length + ("USDT".data).length - ("BTC".data).length
      = s.data.length + 1 := by
    show s.data.length + 4 - 3 = s.data.length + 1
    omega
  rw [h2, List.drop_append 1]
  rfl

lemma pyEndsWith_append_BTC (s : String) : pyEndsWith (s ++ "BTC") "BTC" = true := by
  unfold pyEndsWith
  rw [string_data_append, List.length_append]
  have h2 : s.data.length + ("BTC".data).length - ("BTC".data).length
      = s.data.length + 0 := by omega
  rw [h2, List.drop_append 0]
  rfl

/-! ### First-match helper for the listings scan -/

lemma find?_first_match {α : Type} (p : α → Bool) (pre : List α) (c : α)
    (post : List α) (hpre : ∀ x ∈ pre, p x = false) (hc : p c = true) :
    List.find? p (pre ++ c :: post) = some c := by
  induction pre with
  | nil => simp [List.find?, hc]
  | cons a t ih =>
    rw [List.cons_append, List.find?]
    rw [hpre a (List.mem_cons_self a t)]
    exact ih (fun x hx => hpre x (List.mem_cons_of_mem a hx))

/-! ### Non-negativity helper for the price chain -/

lemma fetch_pair_nonneg {world : String → Option ℚ}
    (hw : ∀ pair p, world pair = some p → 0 ≤ p) (pair : String) (r : ℚ)
    (h : fetch_pair world pair = some r) : 0 ≤ r := by
  unfold fetch_pair at h
  cases hp : world pair with
  | none => simp only [hp] at h; exact absurd h (by simp)
  | some p =>
    simp only [hp] at h
    split at h
    · rw [Option.map_eq_some'] at h
      obtain ⟨conv, hc, hconv⟩ := h
      rw [← hconv]
      exact mul_nonneg (hw pair p hp) (hw _ conv hc)
    · have hr : p = r := Option.some_inj.1 h
      rw [← hr]
      exact hw pair p hp

/-! ### Claim theorems -/

/-- C9: the upper-case-ticker check in `extract_coin` is dead logic — for
every input string the function returns exactly what the variant without
the `isupper`/length-3-to-5 conditional returns, because both branches of
the conditional return the lower-cased token. -/
theorem extract_coin_ticker_branch_dead (query : String) :
    extract_coin query = extract_coin_no_ticker_branch query :=
  extract_coin_eq query

/-- C6: for every upstream news response, the list returned by
`get_crypto_news` has length at most 5 (`results[:5]` on success, `[]` on
any failure). -/
theorem get_crypto_news_length_le_five (resp : Option (List NewsItem)) :
    (get_crypto_news resp).length ≤ 5 := by
  cases resp with
  | none => simp [get_crypto_news]
  | some results =>
    simp only [get_crypto_news, List.length_take]
    exact Nat.min_le_left _ _

/-- C7: every external call is individually guarded and degrades instead of
propagating: when its guarded exchange fails (the world yields `none`, which
collapses transport, timeout and parse failures), `get_crypto_news` returns
`[]`, `get_price_from_binance` returns `None`, `get_market_data` returns
`None`, and `generate_ai_response` returns `""`.  (The accompanying
`st.error` warning is a UI side effect outside the embedding.) -/
theorem external_calls_degrade_gracefully (symbol coin_name coin2 : String)
    (news : List NewsItem) (price_data : Option ℚ)
    (market_data : Option MarketSnapshot) :
    get_crypto_news none = [] ∧
    get_price_from_binance (fun _ => none) symbol = none ∧
    get_market_data coin_name none = none ∧
    generate_ai_response coin2 news price_data market_data (fun _ => none) = "" :=
  ⟨rfl, rfl, rfl, rfl⟩

/-- C1: the price fallback chain of `get_price_from_binance`.  If the
`<symbol>USDT` pair succeeds with price `p`, that price is returned directly
(a `<symbol>USDT` pair never ends in `"BTC"`, so no conversion hop fires).
If the `<symbol>USDT` lookup fails but `<symbol>BTC` succeeds with `p_btc`
and the `BTCUSDT` lookup succeeds with `p_conv`, the result is
`p_btc * p_conv`. -/
theorem get_price_from_binance_fallback (world : String → Option ℚ)
    (symbol : String) :
    (∀ p, world (symbol ++ "USDT") = some p →
      get_price_from_binance world symbol = some p) ∧
    (∀ p_btc p_conv, world (symbol ++ "USDT") = none →
      world (symbol ++ "BTC") = some p_btc →
      world "BTCUSDT" = some p_conv →
      get_price_from_binance world symbol = some (p_btc * p_conv)) := by
  constructor
  · intro p hp
    unfold get_price_from_binance fetch_pair
    simp only [hp, pyEndsWith_append_USDT]
    simp
  · intro p_btc p_conv h1 h2 h3
    unfold get_price_from_binance fetch_pair
    simp only [h1, h2, h3, pyEndsWith_append_BTC]
    simp

/-- A world where the direct `AAAUSDT` pair quotes 7. -/
def directWorld : String → Option ℚ :=
  fun pair => if pair == "AAAUSDT" then some 7 else none

/-- A world where `AAAUSDT` fails, `AAABTC` quotes 2 and `BTCUSDT` quotes 3. -/
def hopWorld : String → Option ℚ :=
  fun pair =>
    if pair == "AAABTC" then some 2
    else if pair == "BTCUSDT" then some 3
    else none

/-- C1 witness: the fallback theorem applied to the concrete worlds — the
direct quote returns 7, the two-hop conversion returns 2 * 3 = 6. -/
theorem get_price_from_binance_fallback_witness :
    get_price_from_binance directWorld "AAA" = some 7 ∧
    get_price_from_binance hopWorld "AAA" = some (2 * 3) :=
  ⟨(get_price_from_binance_fallback directWorld "AAA").1 7 (by decide),
   (get_price_from_binance_fallback hopWorld "AAA").2 2 3
     (by decide) (by decide) (by decide)⟩

/-- C2: three-tier symbol selection priority of the main flow.  Tier 1: a
found snapshot whose `symbol` value is truthy (nonempty) supplies the
symbol.  Tier 2: only when no snapshot symbol is available, a
`TICKER_OVERRIDES` entry keyed by the coin identifier supplies it.  Tier 3:
only when both higher tiers are unavailable, the upper-cased identifier is
used.  "Snapshot symbol unavailable" is `∀ m, market_data = some m →
m.symbol = ""`: either no snapshot was found or its symbol is falsy. -/
theorem select_symbol_priority (coin_name : String)
    (market_data : Option MarketSnapshot) :
    (∀ m, market_data = some m → m.symbol ≠ "" →
      select_symbol coin_name market_data = m.symbol) ∧
    (∀ t, (∀ m, market_data = some m → m.symbol = "") →
      TICKER_OVERRIDES.lookup coin_name = some t →
      select_symbol coin_name market_data = t) ∧
    ((∀ m, market_data = some m → m.symbol = "") →
      TICKER_OVERRIDES.lookup coin_name = none →
      select_symbol coin_name market_data = pyUpper coin_name) := by
  refine ⟨?_, ?_, ?_⟩
  · intro m hm hsym
    rw [hm]
    simp [select_symbol, hsym]
  · intro t hempty hov
    cases market_data with
    | none => simp [select_symbol, select_symbol_fallback, hov]
    | some m =>
      have hsym : m.symbol = "" := hempty m rfl
      simp [select_symbol, select_symbol_fallback, hsym, hov]
  · intro hempty hov
    cases market_data with
    | none => simp [select_symbol, select_symbol_fallback, hov]
    | some m =>
      have hsym : m.symbol = "" := hempty m rfl
      simp [select_symbol, select_symbol_fallback, hsym, hov]

/-- C2 witness: the priority theorem applied at concrete inputs, one per
tier — snapshot symbol wins; `"bitcoin"` with no snapshot uses the override
`"BTC"`; `"dogecoin"` with no snapshot upper-cases to `"DOGECOIN"`. -/
theorem select_symbol_priority_witness :
    select_symbol "bitcoin" (some ⟨"Foo", "FOO", 1, 1, 1, 0⟩) = "FOO" ∧
    select_symbol "bitcoin" none = "BTC" ∧
    select_symbol "dogecoin" none = "DOGECOIN" :=
  ⟨(select_symbol_priority "bitcoin" (some ⟨"Foo", "FOO", 1, 1, 1, 0⟩)).1
      ⟨"Foo", "FOO", 1, 1, 1, 0⟩ rfl (by decide),
   (select_symbol_priority "bitcoin" none).2.1 "BTC"
      (fun m hm => by cases hm) (by decide),
   (select_symbol_priority "dogecoin" none).2.2
      (fun m hm => by cases hm) (by decide)⟩

/-- C3 (amended): `get_market_data` returns the first record of the
listings response whose name or symbol matches the coin name
case-insensitively, and `None` when no record matches; and *when the
response honours the requested page size* (`start=1, limit=50`, so every
record carries `cmc_rank ≤ 50`), a returned snapshot's rank is at most 50.
The code itself performs no rank filtering, so the rank bound needs that
conformance hypothesis (see the counterexample for the unconditional
claim). -/
theorem get_market_data_first_match (coin_name : String) :
    (∀ pre c post, (∀ x ∈ pre, coinMatches coin_name x = false) →
      coinMatches coin_name c = true →
      get_market_data coin_name (some (pre ++ c :: post)) =
        some (toSnapshot c)) ∧
    (∀ l, (∀ x ∈ l, coinMatches coin_name x = false) →
      get_market_data coin_name (some l) = none) ∧
    (∀ l m, (∀ x ∈ l, x.cmc_rank ≤ 50) →
      get_market_data coin_name (some l) = some m → m.rank ≤ 50) := by
  have hsome : ∀ l, get_market_data coin_name (some l) =
      Option.map toSnapshot (List.find? (coinMatches coin_name) l) :=
    fun _ => rfl
  refine ⟨?_, ?_, ?_⟩
  · intro pre c post hpre hc
    rw [hsome, find?_first_match _ pre c post hpre hc]
    rfl
  · intro l hl
    rw [hsome,
      List.find?_eq_none.2 (fun x hx => by rw [hl x hx]; exact Bool.false_ne_true)]
    rfl
  · intro l m hrank hm
    rw [hsome] at hm
    rw [Option.map_eq_some'] at hm
    obtain ⟨c, hc, hcm⟩ := hm
    have hmem : c ∈ l := List.mem_of_find?_eq_some hc
    rw [← hcm]
    exact hrank c hmem

/-- Concrete records for the C3 witness and counterexample. -/
def ethRecord : CMCRecord := ⟨"Ethereum", "ETH", 2000, 2, 2, 1⟩

/-- Bitcoin listings record (rank 1). -/
def btcRecord : CMCRecord := ⟨"Bitcoin", "BTC", 50000, 9, 1, -2⟩

/-- A record the deployed endpoint would never serve on a `limit=50` page:
rank 51. -/
def rank51Record : CMCRecord := ⟨"Aardvark", "AARD", 1, 1, 51, 0⟩

/-- C3 witness: the first-match theorem applied to a concrete response —
`"BITCOIN"` (case-insensitive) skips the non-matching Ethereum record and
selects the Bitcoin one, whose rank 1 is within the page bound. -/
theorem get_market_data_first_match_witness :
    get_market_data "BITCOIN" (some [ethRecord, btcRecord]) =
      some (toSnapshot btcRecord) ∧
    (toSnapshot btcRecord).rank ≤ 50 :=
  ⟨(get_market_data_first_match "BITCOIN").1 [ethRecord] btcRecord []
      (by decide) (by decide),
   (get_market_data_first_match "BITCOIN").2.2 [ethRecord, btcRecord]
      (toSnapshot btcRecord) (by decide)
      ((get_market_data_first_match "BITCOIN").1 [ethRecord] btcRecord []
        (by decide) (by decide))⟩

/-- C3 counterexample: the claim's rank clause is not true of the code for
*every* upstream response — `get_market_data` does no rank filtering, so a
(non-conforming) response carrying a matching record with `cmc_rank = 51`
is returned as-is, a snapshot ranked 51st. -/
theorem get_market_data_rank51_counterexample :
    get_market_data "aardvark" (some [rank51Record]) =
      some (toSnapshot rank51Record) ∧
    51 ≤ (toSnapshot rank51Record).rank := by
  refine ⟨by decide, by decide⟩

/-- C8 (amended): whenever every price the upstream price endpoint delivers
is non-negative, a present `get_price_from_binance` result is non-negative
(a direct quote is one such price; the conversion hop multiplies two of
them).  The code itself parses `float(data["price"])` without any sign
check, so the unconditional claim fails on an adversarial response (see the
counterexample). -/
theorem get_price_from_binance_nonneg (world : String → Option ℚ)
    (symbol : String) (hw : ∀ pair p, world pair = some p → 0 ≤ p) :
    ∀ r, get_price_from_binance world symbol = some r → 0 ≤ r := by
  intro r hr
  unfold get_price_from_binance at hr
  cases h1 : fetch_pair world (symbol ++ "USDT") with
  | some p =>
    rw [h1] at hr
    have hp : p = r := Option.some_inj.1 hr
    rw [← hp]
    exact fetch_pair_nonneg hw _ p h1
  | none =>
    rw [h1] at hr
    exact fetch_pair_nonneg hw _ r hr

/-- A world quoting 2 for every pair. -/
def allTwoWorld : String → Option ℚ := fun _ => some 2

/-- C8 witness: the non-negativity theorem applied to the all-2 world,
whose direct quote for `"AAAUSDT"` is 2. -/
theorem get_price_from_binance_nonneg_witness :
    get_price_from_binance allTwoWorld "AAA" = some 2 ∧ (0 : ℚ) ≤ 2 :=
  ⟨by decide,
   get_price_from_binance_nonneg allTwoWorld "AAA"
     (fun pair p h => by
       have h2 : (2 : ℚ) = p := Option.some_inj.1 h
       rw [← h2]; norm_num)
     2 (by decide)⟩

/-- A world whose `AAAUSDT` response carries the string-encoded price
`"-1"`; `float("-1")` parses fine, so the code returns it. -/
def negPriceWorld : String → Option ℚ :=
  fun pair => if pair == "AAAUSDT" then some (-1) else none

/-- C8 counterexample: the unconditional claim is false — for this upstream
response `get_price_from_binance` is present and negative, because the code
never checks the sign of the parsed price. -/
theorem get_price_negative_counterexample :
    get_price_from_binance negPriceWorld "AAA" = some (-1) ∧
    ¬ ((0 : ℚ) ≤ -1) :=
  ⟨by decide, by norm_num⟩

/-- Every character of `extract_coin`'s result is non-whitespace: the token
is carved out by `takeWhile (not whitespace)` and final lower-casing maps
no character into the whitespace set. -/
lemma extract_coin_no_ws (query : String) :
    ∀ c ∈ (extract_coin query).data, c.isWhitespace = false := by
  intro c hc
  rw [extract_coin_eq, pyLower_data] at hc
  obtain ⟨d, hd, hdc⟩ := List.mem_map.1 hc
  rw [← hdc]
  exact char_toLower_not_ws (extract_token_no_ws query d hd)

/-- C5 (amended): for every input string, `extract_coin` returns a
lower-case (`lower()`-fixed), whitespace-trimmed (indeed whitespace-free)
string, and the result never equals a noise-phrase entry that contains a
space (the multi-word phrases).  The original claim's stronger clause —
that the result never equals *any* noise entry — is false: removing one
noise phrase can splice a later one together (see the counterexample). -/
theorem extract_coin_lower_trimmed (query : String) :
    pyLower (extract_coin query) = extract_coin query ∧
    pyStrip (extract_coin query) = extract_coin query ∧
    ∀ w, w ∈ noiseWords → (' ') ∈ w.data → extract_coin query ≠ w := by
  refine ⟨?_, ?_, ?_⟩
  · rw [extract_coin_eq]
    exact pyLower_idem _
  · exact pyStrip_of_no_ws _ (extract_coin_no_ws query)
  · intro w hw hsp heq
    have hws : (' ').isWhitespace = false := by
      rw [← heq] at hsp
      exact extract_coin_no_ws query ' ' hsp
    simp at hws

/-- C5 witness: the amended theorem at the spec's own example query — the
result `"bitcoin"` is lower-case, trimmed, and differs from the space-bearing
noise phrase `"tell me about"`. -/
theorem extract_coin_lower_trimmed_witness :
    pyLower (extract_coin "Tell me about Bitcoin") =
      extract_coin "Tell me about Bitcoin" ∧
    pyStrip (extract_coin "Tell me about Bitcoin") =
      extract_coin "Tell me about Bitcoin" ∧
    extract_coin "Tell me about Bitcoin" ≠ "tell me about" :=
  ⟨(extract_coin_lower_trimmed "Tell me about Bitcoin").1,
   (extract_coin_lower_trimmed "Tell me about Bitcoin").2.1,
   (extract_coin_lower_trimmed "Tell me about Bitcoin").2.2 "tell me about"
     (by decide) (by decide)⟩

/-- C5 counterexample: the claim as stated is false.  On the input
`"nenewsws"`, removing the noise word `"news"` splices the surrounding
characters into a fresh `"news"`, which survives the (already passed)
removal step and becomes the returned identifier — a complete-token match
of a noise-list entry. -/
theorem extract_coin_noise_counterexample :
    extract_coin "nenewsws" = "news" ∧ "news" ∈ noiseWords := by
  refine ⟨by decide, by decide⟩

/-- Zeta-reduced unfolding of `main_flow` (definitionally equal). -/
lemma main_flow_def (newsResp : Option (List NewsItem))
    (listResp : Option (List CMCRecord)) (priceWorld : String → Option ℚ)
    (gen : String → Option (Option String)) (query : String) :
    main_flow newsResp listResp priceWorld gen query =
      if ((get_market_data (extract_coin query) listResp).isNone &&
          (get_crypto_news newsResp).isEmpty) = true then
        FlowResult.unsupported (extract_coin query)
      else
        FlowResult.rendered (extract_coin query) (get_crypto_news newsResp)
          (get_market_data (extract_coin query) listResp)
          (get_price_from_binance priceWorld
            (select_symbol (extract_coin query)
              (get_market_data (extract_coin query) listResp)))
          (if pyTruthyPrice (get_price_from_binance priceWorld
              (select_symbol (extract_coin query)
                (get_market_data (extract_coin query) listResp))) = true then
            get_price_from_binance priceWorld
              (select_symbol (extract_coin query)
                (get_market_data (extract_coin query) listResp))
          else none)
          (generate_ai_response (extract_coin query) (get_crypto_news newsResp)
            (if pyTruthyPrice (get_price_from_binance priceWorld
                (select_symbol (extract_coin query)
                  (get_market_data (extract_coin query) listResp))) = true then
              get_price_from_binance priceWorld
                (select_symbol (extract_coin query)
                  (get_market_data (extract_coin query) listResp))
            else none)
            (get_market_data (extract_coin query) listResp) gen)
          (pyTruthyPrice (get_price_from_binance priceWorld
              (select_symbol (extract_coin query)
                (get_market_data (extract_coin query) listResp))) &&
            (get_market_data (extract_coin query) listResp).isNone) := rfl

/-- C4: when the resolved identifier yields an empty news list and no
market snapshot, the main flow stops early with the unsupported-coin
outcome, and the outcome is the same for every summarizer world — i.e. no
`generate_ai_response` call is issued for that query. -/
theorem main_flow_unsupported_guard (newsResp : Option (List NewsItem))
    (listResp : Option (List CMCRecord)) (priceWorld : String → Option ℚ)
    (gen : String → Option (Option String)) (query : String)
    (hnews : get_crypto_news newsResp = [])
    (hmd : get_market_data (extract_coin query) listResp = none) :
    main_flow newsResp listResp priceWorld gen query =
      FlowResult.unsupported (extract_coin query) ∧
    ∀ gen2, main_flow newsResp listResp priceWorld gen2 query =
      FlowResult.unsupported (extract_coin query) := by
  have h : ∀ g, main_flow newsResp listResp priceWorld g query =
      FlowResult.unsupported (extract_coin query) := by
    intro g
    rw [main_flow_def, hnews, hmd]
    simp
  exact ⟨h gen, fun gen2 => h gen2⟩

/-- A summarizer world that always answers. -/
def sampleGen : String → Option (Option String) := fun _ => some (some "summary")

/-- C4 witness: the guard theorem at a concrete query whose news and
listings calls both fail. -/
theorem main_flow_unsupported_guard_witness :
    main_flow none none (fun _ => none) sampleGen "Tell me about Bitcoin" =
      FlowResult.unsupported (extract_coin "Tell me about Bitcoin") ∧
    extract_coin "Tell me about Bitcoin" = "bitcoin" :=
  ⟨(main_flow_unsupported_guard none none (fun _ => none) sampleGen
      "Tell me about Bitcoin" rfl rfl).1, by decide⟩

/-- C10: if `get_price_from_binance` returns exactly `0.0`, the main flow's
truthiness test (`{"price": price} if price else None` and
`if price and not market_data`) treats the quote as absent: the price
record handed to `generate_ai_response` is `None` (so the prompt's price
renders via `price_str_of none = "N/A"`), and the standalone Binance price
metric is not shown. -/
theorem main_flow_zero_price_truthiness (newsResp : Option (List NewsItem))
    (listResp : Option (List CMCRecord)) (priceWorld : String → Option ℚ)
    (gen : String → Option (Option String)) (query : String)
    (hstop : ((get_market_data (extract_coin query) listResp).isNone &&
      (get_crypto_news newsResp).isEmpty) = false)
    (hp : get_price_from_binance priceWorld
      (select_symbol (extract_coin query)
        (get_market_data (extract_coin query) listResp)) = some 0) :
    main_flow newsResp listResp priceWorld gen query =
      FlowResult.rendered (extract_coin query) (get_crypto_news newsResp)
        (get_market_data (extract_coin query) listResp) (some 0) none
        (generate_ai_response (extract_coin query) (get_crypto_news newsResp)
          none (get_market_data (extract_coin query) listResp) gen) false ∧
    price_str_of none = "N/A" := by
  constructor
  · rw [main_flow_def, hstop, hp]
    simp [pyTruthyPrice]
  · rfl

/-- A price world quoting exactly 0 for every pair. -/
def zeroPriceWorld : String → Option ℚ := fun _ => some 0

/-- One sample news record (keeps the unsupported-coin guard from firing). -/
def sampleNews : NewsItem :=
  ⟨"Zebra coin rallies", "Wire", "2024-01-01", "http://example.com"⟩

/-- C10 witness: the truthiness theorem at a concrete query with news
present, no market snapshot, and a zero Binance quote. -/
theorem main_flow_zero_price_truthiness_witness :
    main_flow (some [sampleNews]) none zeroPriceWorld sampleGen "zebra" =
      FlowResult.rendered (extract_coin "zebra")
        (get_crypto_news (some [sampleNews]))
        (get_market_data (extract_coin "zebra") none) (some 0) none
        (generate_ai_response (extract_coin "zebra")
          (get_crypto_news (some [sampleNews])) none
          (get_market_data (extract_coin "zebra") none) sampleGen) false ∧
    price_str_of none = "N/A" :=
  main_flow_zero_price_truthiness (some [sampleNews]) none zeroPriceWorld
    sampleGen "zebra" (by decide) (by decide)
